import Mathlib

/-!
# Space-invaders simulation core: shallow embedding and verification

This file embeds the simulation core of the space-invaders repository in
Lean 4 and proves (or refutes) the specification's claims about it.

Time values and coordinates, `number` in the source, are modelled as `ℚ`
(exact arithmetic); JavaScript division that can produce non-finite
results (`NaN`/`±Infinity`) is modelled as an `Option ℚ` where `none`
stands for a non-finite result.  Wall-clock readings (`Date.now()`,
`performance.now()` timestamps) are passed in explicitly as arguments, so
that dependence on the real-time schedule is visible in the embedding.
-/

namespace SpaceInvaders

/-! ## Game loop (core/loop `GameLoop`)

Source: `class GameLoop` — `tick(currentTime)` clamps the frame delta to
`maxDeltaTime`, adds it to an accumulator, and drains the accumulator in
steps of `updateInterval`, calling `updateCallback(this.config.updateInterval)`
while `accumulator >= updateInterval && updateCount < maxFrameSkip`;
afterwards `alpha = accumulator / updateInterval` is passed to the render
callback.  (The FPS bookkeeping does not feed back into the drain loop and
is omitted.) -/

/-- Configuration of `GameLoop` (`DEFAULT_CONFIG` fields that the tick
drain loop reads: `maxDeltaTime`, `updateInterval`, `maxFrameSkip`). -/
structure LoopConfig where
  maxDeltaTime : ℚ
  updateInterval : ℚ
  maxFrameSkip : ℕ
deriving Repr, DecidableEq

/-- The `while (accumulator >= updateInterval && updateCount < maxFrameSkip)`
drain loop of `GameLoop.tick`.  `fuel` is the number of remaining allowed
iterations (`maxFrameSkip - updateCount`).  Returns the list of arguments
passed to `updateCallback` (the source always passes
`this.config.updateInterval`) and the final accumulator. -/
def drainLoop (interval : ℚ) (acc : ℚ) : ℕ → List ℚ × ℚ
  | 0 => ([], acc)
  | fuel + 1 =>
    if interval ≤ acc then
      let rest := drainLoop interval (acc - interval) fuel
      (interval :: rest.1, rest.2)
    else
      ([], acc)

/-- One `GameLoop.tick` body, from the delta-clamping on: given the
accumulator carried over from the previous frame and this frame's raw
`deltaTime`, returns the list of step arguments passed to
`updateCallback`, the accumulator left after the drain loop, and the
interpolation `alpha = accumulator / updateInterval` passed to the render
callback. -/
def tick (cfg : LoopConfig) (accumulator : ℚ) (deltaTime : ℚ) :
    List ℚ × ℚ × ℚ :=
  let d := min deltaTime cfg.maxDeltaTime
  let acc := accumulator + d
  let drained := drainLoop cfg.updateInterval acc cfg.maxFrameSkip
  (drained.1, drained.2, drained.2 / cfg.updateInterval)

/-- Runs the loop over a whole sequence of frame deltas starting from
accumulator `0` (as set by `GameLoop.start`).  Returns the per-frame lists
of update-step arguments and the final accumulator. -/
def runLoop (cfg : LoopConfig) (deltas : List ℚ) : List (List ℚ) × ℚ :=
  deltas.foldl
    (fun st d =>
      let t := tick cfg st.2 d
      (st.1 ++ [t.1], t.2.1))
    ([], 0)

/-- The accumulator after `tick`, convenient for stating invariants. -/
def tickAcc (cfg : LoopConfig) (accumulator deltaTime : ℚ) : ℚ :=
  (tick cfg accumulator deltaTime).2.1

lemma drainLoop_mem (interval acc : ℚ) (fuel : ℕ) :
    ∀ s ∈ (drainLoop interval acc fuel).1, s = interval := by
  induction fuel generalizing acc with
  | zero => simp [drainLoop]
  | succ n ih =>
    intro s hs
    by_cases h : interval ≤ acc
    · rw [drainLoop, if_pos h] at hs
      rcases List.mem_cons.mp hs with h1 | h1
      · exact h1
      · exact ih _ s h1
    · rw [drainLoop, if_neg h] at hs
      simp at hs

lemma drainLoop_length (interval acc : ℚ) (fuel : ℕ) :
    (drainLoop interval acc fuel).1.length ≤ fuel := by
  induction fuel generalizing acc with
  | zero => simp [drainLoop]
  | succ n ih =>
    by_cases h : interval ≤ acc
    · simpa [drainLoop, if_pos h, Nat.succ_le_succ_iff] using ih (acc - interval)
    · simp [drainLoop, if_neg h]

lemma drainLoop_acc_bounds (interval : ℚ) :
    ∀ (fuel : ℕ) (acc : ℚ), 0 ≤ acc → acc < (fuel + 1 : ℚ) * interval →
      0 ≤ (drainLoop interval acc fuel).2 ∧
        (drainLoop interval acc fuel).2 < interval := by
  intro fuel
  induction fuel with
  | zero =>
    intro acc h0 h1
    rw [drainLoop]
    constructor
    · exact h0
    · simpa using h1
  | succ n ih =>
    intro acc h0 h1
    by_cases h : interval ≤ acc
    · rw [drainLoop, if_pos h]
      refine ih (acc - interval) (by linarith) ?_
      push_cast at h1 ⊢
      linarith
    · rw [drainLoop, if_neg h]
      exact ⟨h0, lt_of_not_le h⟩

lemma tick_calls_fixed (cfg : LoopConfig) (acc d : ℚ) :
    (∀ s ∈ (tick cfg acc d).1, s = cfg.updateInterval) ∧
      (tick cfg acc d).1.length ≤ cfg.maxFrameSkip := by
  exact ⟨drainLoop_mem _ _ _, drainLoop_length _ _ _⟩

lemma runLoop_frames_aux (cfg : LoopConfig) (deltas : List ℚ) :
    ∀ (fs : List (List ℚ)) (a : ℚ),
      (∀ f ∈ fs, (∀ s ∈ f, s = cfg.updateInterval) ∧
          f.length ≤ cfg.maxFrameSkip) →
      ∀ f ∈ (deltas.foldl
          (fun st d =>
            let t := tick cfg st.2 d
            (st.1 ++ [t.1], t.2.1)) (fs, a)).1,
        (∀ s ∈ f, s = cfg.updateInterval) ∧ f.length ≤ cfg.maxFrameSkip := by
  induction deltas with
  | nil => intro fs a hfs; simpa using hfs
  | cons d ds ih =>
    intro fs a hfs
    simp only [List.foldl_cons]
    refine ih _ _ ?_
    intro f hf
    rcases List.mem_append.mp hf with h | h
    · exact hfs f h
    · rcases List.mem_singleton.mp h with rfl
      exact tick_calls_fixed cfg a d

/-- C1: for every configuration and every sequence of frame deltas, every
update invocation made by the game loop receives exactly the configured
fixed `updateInterval` as its step argument, and no frame makes more than
`maxFrameSkip` update invocations. -/
theorem gameLoop_fixed_step_and_capped (cfg : LoopConfig) (deltas : List ℚ) :
    ∀ frame ∈ (runLoop cfg deltas).1,
      (∀ s ∈ frame, s = cfg.updateInterval) ∧
        frame.length ≤ cfg.maxFrameSkip := by
  exact runLoop_frames_aux cfg deltas [] 0 (by simp)

/-- Witness for `gameLoop_fixed_step_and_capped`: configuration
`⟨30, 10, 5⟩` with one frame delta of 25 produces the single frame
`[10, 10]` — two update calls, both with the fixed interval 10. -/
theorem gameLoop_fixed_step_witness :
    ([10, 10] : List ℚ) ∈ (runLoop ⟨30, 10, 5⟩ [25]).1 ∧
      (∀ s ∈ ([10, 10] : List ℚ), s = (10 : ℚ)) ∧
      ([10, 10] : List ℚ).length ≤ 5 := by
  have hmem : ([10, 10] : List ℚ) ∈ (runLoop ⟨30, 10, 5⟩ [25]).1 := by
    norm_num [runLoop, tick, drainLoop]
  have h := gameLoop_fixed_step_and_capped ⟨30, 10, 5⟩ [25] [10, 10] hmem
  exact ⟨hmem, h.1, h.2⟩

/-- C2 counterexample: with `maxDeltaTime = 100`, `updateInterval = 10`,
`maxFrameSkip = 3` and one frame delta of `100`, the drain loop exits on
the step cap with accumulator `70`, so `alpha = 7 ∉ [0,1)` — the claimed
invariant fails for this configuration. -/
theorem gameLoop_alpha_not_always_unit :
    (tick ⟨100, 10, 3⟩ 0 100).2.2 = 7 ∧
      ¬ (tick ⟨100, 10, 3⟩ 0 100).2.2 < 1 := by
  have h : (tick ⟨100, 10, 3⟩ 0 100).2.2 = 7 := by
    show (drainLoop 10 (0 + min 100 100) 3).2 / 10 = 7
    norm_num [drainLoop]
  exact ⟨h, by rw [h]; norm_num⟩

lemma tick_acc_invariant (cfg : LoopConfig)
    (h2 : 0 ≤ cfg.maxDeltaTime)
    (h3 : cfg.maxDeltaTime ≤ (cfg.maxFrameSkip : ℚ) * cfg.updateInterval)
    (acc d : ℚ) (hacc0 : 0 ≤ acc) (hacc1 : acc < cfg.updateInterval)
    (hd : 0 ≤ d) :
    0 ≤ (tick cfg acc d).2.1 ∧ (tick cfg acc d).2.1 < cfg.updateInterval := by
  have hmin0 : 0 ≤ min d cfg.maxDeltaTime := le_min hd h2
  have hmin1 : min d cfg.maxDeltaTime ≤ cfg.maxDeltaTime := min_le_right _ _
  refine drainLoop_acc_bounds cfg.updateInterval cfg.maxFrameSkip
      (acc + min d cfg.maxDeltaTime) (by linarith) ?_
  linarith

lemma runLoop_acc_invariant (cfg : LoopConfig)
    (h2 : 0 ≤ cfg.maxDeltaTime)
    (h3 : cfg.maxDeltaTime ≤ (cfg.maxFrameSkip : ℚ) * cfg.updateInterval) :
    ∀ (deltas : List ℚ), (∀ d ∈ deltas, 0 ≤ d) →
      ∀ (fs : List (List ℚ)) (a : ℚ), 0 ≤ a → a < cfg.updateInterval →
        0 ≤ (deltas.foldl
            (fun st d =>
              let t := tick cfg st.2 d
              (st.1 ++ [t.1], t.2.1)) (fs, a)).2 ∧
          (deltas.foldl
            (fun st d =>
              let t := tick cfg st.2 d
              (st.1 ++ [t.1], t.2.1)) (fs, a)).2 < cfg.updateInterval := by
  intro deltas
  induction deltas with
  | nil => intro _ fs a ha0 ha1; exact ⟨ha0, ha1⟩
  | cons d ds ih =>
    intro hds fs a ha0 ha1
    simp only [List.foldl_cons]
    have hstep := tick_acc_invariant cfg h2 h3 a d ha0 ha1
      (hds d (List.mem_cons_self d ds))
    exact ih (fun x hx => hds x (List.mem_cons_of_mem d hx)) _ _ hstep.1 hstep.2

/-- C2 (amended): the interpolation factor is always
`accumulator / updateInterval`; the claimed bound `alpha ∈ [0,1)` holds
for every frame provided the configuration satisfies
`maxDeltaTime ≤ maxFrameSkip * updateInterval` (true of the defaults) and
frame deltas are nonnegative: the accumulator run from `0` then stays in
`[0, updateInterval)` after every frame's drain loop, and any tick from
such an accumulator yields `alpha ∈ [0,1)`. -/
theorem gameLoop_alpha_unit_of_bounded_clamp (cfg : LoopConfig)
    (h1 : 0 < cfg.updateInterval) (h2 : 0 ≤ cfg.maxDeltaTime)
    (h3 : cfg.maxDeltaTime ≤ (cfg.maxFrameSkip : ℚ) * cfg.updateInterval)
    (deltas : List ℚ) (hds : ∀ d ∈ deltas, 0 ≤ d) :
    (0 ≤ (runLoop cfg deltas).2 ∧
        (runLoop cfg deltas).2 < cfg.updateInterval) ∧
      ∀ acc d, 0 ≤ acc → acc < cfg.updateInterval → 0 ≤ d →
        (tick cfg acc d).2.2 = (tick cfg acc d).2.1 / cfg.updateInterval ∧
          0 ≤ (tick cfg acc d).2.2 ∧ (tick cfg acc d).2.2 < 1 := by
  constructor
  · exact runLoop_acc_invariant cfg h2 h3 deltas hds [] 0 le_rfl h1
  · intro acc d ha0 ha1 hd
    have hb := tick_acc_invariant cfg h2 h3 acc d ha0 ha1 hd
    refine ⟨rfl, div_nonneg hb.1 (le_of_lt h1), ?_⟩
    exact (div_lt_one h1).mpr hb.2

/-- Witness for `gameLoop_alpha_unit_of_bounded_clamp` at the concrete
configuration `⟨30, 10, 5⟩` and delta sequence `[25, 7]`. -/
theorem gameLoop_alpha_unit_witness :
    (0 : ℚ) < 10 ∧ 0 ≤ (runLoop ⟨30, 10, 5⟩ [25, 7]).2 ∧
      (runLoop ⟨30, 10, 5⟩ [25, 7]).2 < 10 := by
  have h := gameLoop_alpha_unit_of_bounded_clamp ⟨30, 10, 5⟩
    (by norm_num) (by norm_num) (by norm_num) [25, 7]
    (by
      intro d hd
      simp only [List.mem_cons, List.not_mem_nil, or_false] at hd
      rcases hd with rfl | rfl <;> norm_num)
  exact ⟨by norm_num, h.1.1, h.1.2⟩

/-! ## Wave manager (`WaveManager`)

Source: `class WaveManager` — `startNextWave()` returns `false` when a
wave is already active; otherwise it increments `currentWave`, looks the
new wave number up in `waveConfigs`, and on a missing configuration throws
inside its own `try`, which the surrounding `catch` converts to a `false`
return (the incremented `currentWave` is not rolled back).  On success it
sets `isWaveActive`, resets `spawnTimer` and spawns the formation (the
four formation spawners are unimplemented stubs, so `activeEnemies` stays
as it was).  `update(deltaTime)` advances `spawnTimer` and deactivates the
wave as complete once `activeEnemies` is empty. -/

/-- `enum Formation` of WaveManager.ts. -/
inductive Formation
  | LINE | V_SHAPE | CIRCLE | RANDOM
deriving Repr, DecidableEq

/-- `enum EnemyType` of WaveManager.ts. -/
inductive EnemyType
  | BASIC | FAST | TANK | BOSS
deriving Repr, DecidableEq

/-- `interface WaveConfig` of WaveManager.ts. -/
structure WaveConfig where
  enemyCount : ℕ
  enemyTypes : List EnemyType
  spawnInterval : ℚ
  formation : Formation
  difficulty : ℚ
deriving Repr, DecidableEq

/-- Mutable fields of `WaveManager` that its public operations touch
(`waveConfigs` is read-only after construction and passed separately,
`spawnPoints` is never read by the modelled operations). -/
structure WaveState where
  currentWave : ℕ
  isWaveActive : Bool
  spawnTimer : ℚ
  activeEnemies : List String
deriving Repr, DecidableEq

/-- `initializeWaveConfigs`: the constructor registers configurations for
waves 1 and 2 only. -/
def initializeWaveConfigs (initialDifficulty : ℚ) : ℕ → Option WaveConfig
  | 1 => some ⟨5, [.BASIC], 1000, .LINE, initialDifficulty⟩
  | 2 => some ⟨8, [.BASIC, .FAST], 800, .V_SHAPE, initialDifficulty * (12 / 10)⟩
  | _ => none

/-- Constructor state: `currentWave = 0`, `isWaveActive = false`,
`spawnTimer = 0`, `activeEnemies = new Set()`. -/
def initialWaveState : WaveState := ⟨0, false, 0, []⟩

/-- `spawnEnemiesInFormation`: every reachable branch dispatches to an
unimplemented stub spawner, so the state is unchanged (the `default`
throw branch is unreachable for `Formation` enum values). -/
def spawnEnemiesInFormation (_config : WaveConfig) (s : WaveState) :
    WaveState := s

/-- `WaveManager.startNextWave` — returns the boolean result and the
post-call state.  The `catch` that absorbs the missing-configuration
throw leaves the already-incremented `currentWave` in place. -/
def startNextWave (cfgs : ℕ → Option WaveConfig) (s : WaveState) :
    Bool × WaveState :=
  if s.isWaveActive then (false, s)
  else
    let w := s.currentWave + 1
    match cfgs w with
    | none => (false, { s with currentWave := w })
    | some config =>
      (true, spawnEnemiesInFormation config
        { s with currentWave := w, isWaveActive := true, spawnTimer := 0 })

/-- `WaveManager.update` — accumulates the spawn timer and runs
`checkWaveCompletion`, which deactivates the wave when `activeEnemies` is
empty. -/
def waveUpdate (deltaTime : ℚ) (s : WaveState) : WaveState :=
  if s.isWaveActive = false then s
  else
    let s1 := { s with spawnTimer := s.spawnTimer + deltaTime }
    if s1.activeEnemies.isEmpty then { s1 with isWaveActive := false }
    else s1

/-- C7: `startNextWave` (a total function here — every throw in the source
is caught and turned into `false`) fails exactly when a wave is already
active or the next wave number has no configuration; and in the concrete
scenario with configurations only for waves 1 and 2, letting each started
wave run to completion, the first two calls succeed and the third fails. -/
theorem startNextWave_failure_conditions :
    (∀ (cfgs : ℕ → Option WaveConfig) (s : WaveState),
      (startNextWave cfgs s).1 = false ↔
        (s.isWaveActive = true ∨ cfgs (s.currentWave + 1) = none)) ∧
    ((startNextWave (initializeWaveConfigs 1) initialWaveState).1 = true ∧
      (startNextWave (initializeWaveConfigs 1)
        (waveUpdate 16 (startNextWave (initializeWaveConfigs 1)
          initialWaveState).2)).1 = true ∧
      (startNextWave (initializeWaveConfigs 1)
        (waveUpdate 16 (startNextWave (initializeWaveConfigs 1)
          (waveUpdate 16 (startNextWave (initializeWaveConfigs 1)
            initialWaveState).2)).2)).1 = false) := by
  constructor
  · intro cfgs s
    by_cases hA : s.isWaveActive
    · simp [startNextWave, hA]
    · cases hc : cfgs (s.currentWave + 1) with
      | none => simp [startNextWave, hA, hc]
      | some c => simp [startNextWave, hA, hc]
  · refine ⟨rfl, rfl, rfl⟩

/-- C9: when no wave is active and the next wave number has no
configuration, `startNextWave` returns `false` but leaves `currentWave`
incremented — the failed call mutates the state, and the following call
attempts the wave number after the one that just failed. -/
theorem startNextWave_failure_mutates (cfgs : ℕ → Option WaveConfig)
    (s : WaveState) (h1 : s.isWaveActive = false)
    (h2 : cfgs (s.currentWave + 1) = none) :
    (startNextWave cfgs s).1 = false ∧
      (startNextWave cfgs s).2.currentWave = s.currentWave + 1 ∧
      (startNextWave cfgs s).2 ≠ s ∧
      (startNextWave cfgs (startNextWave cfgs s).2).2.currentWave =
        s.currentWave + 2 := by
  have hs : startNextWave cfgs s = (false, { s with currentWave := s.currentWave + 1 }) := by
    simp [startNextWave, h1, h2]
  refine ⟨by rw [hs], by rw [hs], ?_, ?_⟩
  · rw [hs]
    intro hcontra
    have := congrArg WaveState.currentWave hcontra
    simp at this
  · rw [hs]
    show (startNextWave cfgs { s with currentWave := s.currentWave + 1 }).2.currentWave = s.currentWave + 2
    unfold startNextWave
    simp only [h1]
    cases hc : cfgs (s.currentWave + 1 + 1) with
    | none => simp [spawnEnemiesInFormation]
    | some c => simp [spawnEnemiesInFormation]

/-- Witness for `startNextWave_failure_mutates`: wave manager after waves
1 and 2 are consumed (`currentWave = 2`, inactive); wave 3 has no
configuration, the call fails, and the state now targets wave 4. -/
theorem startNextWave_failure_mutates_witness :
    (⟨2, false, 0, []⟩ : WaveState).isWaveActive = false ∧
      initializeWaveConfigs 1 3 = none ∧
      (startNextWave (initializeWaveConfigs 1) ⟨2, false, 0, []⟩).1 = false ∧
      (startNextWave (initializeWaveConfigs 1)
        ⟨2, false, 0, []⟩).2.currentWave = 3 := by
  have h := startNextWave_failure_mutates (initializeWaveConfigs 1)
    ⟨2, false, 0, []⟩ rfl rfl
  exact ⟨rfl, rfl, h.1, h.2.1⟩

/-! ## Enemy (`entities/Enemy.ts`)

Source: `Enemy.update(deltaTime)` begins with
`if (!deltaTime || deltaTime < 0) throw new Error('Invalid deltaTime provided')`;
JavaScript `!deltaTime` is true for `deltaTime === 0` (and for `NaN`,
which exact arithmetic does not produce), so a zero step throws just like
a negative one.  Otherwise the step is converted to seconds and the
pattern-specific movement runs. -/

/-- `enum EnemyMovementPattern`. -/
inductive EnemyMovementPattern
  | SIDE_TO_SIDE | DOWNWARD | STATIONARY
deriving Repr, DecidableEq

/-- `interface EnemyMovementConfig`. -/
structure EnemyMovementConfig where
  speed : ℚ
  pattern : EnemyMovementPattern
  boundaryLeft : ℚ
  boundaryRight : ℚ
  boundaryBottom : ℚ
deriving Repr, DecidableEq

/-- Mutable fields of `Enemy`: position, velocity and the side-to-side
direction flag (`1` for right, `-1` for left). -/
structure EnemyState where
  posX : ℚ
  posY : ℚ
  velX : ℚ
  velY : ℚ
  direction : ℤ
deriving Repr, DecidableEq

/-- `Enemy.updateSideToSideMovement`. -/
def updateSideToSideMovement (cfg : EnemyMovementConfig) (s : EnemyState)
    (timeStep : ℚ) : EnemyState :=
  let x := s.posX + s.velX * timeStep
  if x ≤ cfg.boundaryLeft then
    { s with posX := cfg.boundaryLeft, direction := 1, velX := |s.velX| }
  else if x ≥ cfg.boundaryRight then
    { s with posX := cfg.boundaryRight, direction := -1, velX := -|s.velX| }
  else
    { s with posX := x }

/-- `Enemy.updateDownwardMovement`. -/
def updateDownwardMovement (cfg : EnemyMovementConfig) (s : EnemyState)
    (timeStep : ℚ) : EnemyState :=
  let y := s.posY + s.velY * timeStep
  if y ≥ cfg.boundaryBottom then { s with posY := 0 }
  else { s with posY := y }

/-- `Enemy.update(deltaTime)`: the `!deltaTime || deltaTime < 0` guard
throws, then the movement pattern dispatch runs on the step converted to
seconds (`deltaTime / 1000`); `STATIONARY` has no case and is a no-op. -/
def enemyUpdate (cfg : EnemyMovementConfig) (s : EnemyState)
    (deltaTime : ℚ) : Except String EnemyState :=
  if deltaTime = 0 ∨ deltaTime < 0 then
    Except.error "Invalid deltaTime provided"
  else
    let timeStep := deltaTime / 1000
    match cfg.pattern with
    | .SIDE_TO_SIDE => Except.ok (updateSideToSideMovement cfg s timeStep)
    | .DOWNWARD => Except.ok (updateDownwardMovement cfg s timeStep)
    | .STATIONARY => Except.ok s

/-- C10: `Enemy.update` throws exactly on `deltaTime = 0` and on negative
`deltaTime` (the falsy check `!deltaTime` catches zero), and succeeds for
every strictly positive `deltaTime`. -/
theorem enemyUpdate_zero_and_negative_throw (cfg : EnemyMovementConfig)
    (s : EnemyState) (deltaTime : ℚ) :
    (enemyUpdate cfg s deltaTime =
        Except.error "Invalid deltaTime provided" ↔
      (deltaTime = 0 ∨ deltaTime < 0)) ∧
    (0 < deltaTime → ∃ s', enemyUpdate cfg s deltaTime = Except.ok s') := by
  constructor
  · constructor
    · intro h
      by_contra hc
      rw [enemyUpdate, if_neg hc] at h
      cases hp : cfg.pattern <;> simp [hp] at h
    · intro h
      rw [enemyUpdate, if_pos h]
  · intro h
    have hc : ¬ (deltaTime = 0 ∨ deltaTime < 0) := by
      push_neg
      exact ⟨ne_of_gt h, le_of_lt h⟩
    rw [enemyUpdate, if_neg hc]
    cases hp : cfg.pattern <;> simp [hp]

/-- Witness for `enemyUpdate_zero_and_negative_throw`: a stationary
enemy rejects `deltaTime = 0` and accepts `deltaTime = 16`. -/
theorem enemyUpdate_zero_throw_witness :
    enemyUpdate ⟨2, .STATIONARY, 0, 800, 600⟩ ⟨0, 0, 0, 0, 1⟩ 0 =
        Except.error "Invalid deltaTime provided" ∧
      (0 : ℚ) < 16 ∧
      (∃ s', enemyUpdate ⟨2, .STATIONARY, 0, 800, 600⟩ ⟨0, 0, 0, 0, 1⟩ 16 =
        Except.ok s') := by
  refine ⟨?_, by norm_num, ?_⟩
  · exact (enemyUpdate_zero_and_negative_throw
      ⟨2, .STATIONARY, 0, 800, 600⟩ ⟨0, 0, 0, 0, 1⟩ 0).1.mpr (Or.inl rfl)
  · exact (enemyUpdate_zero_and_negative_throw
      ⟨2, .STATIONARY, 0, 800, 600⟩ ⟨0, 0, 0, 0, 1⟩ 16).2 (by norm_num)

/-! ## Projectiles

Two projectile implementations exist in the repository.

The pooled one (ProjectileManager.ts, `class Projectile`): `update(deltaTime)`
advances the position, accumulates `elapsedTime += deltaTime` and
deactivates once `elapsedTime >= lifetime` — expiry depends only on the
simulation-time deltas fed to `update`.

The standalone one (`entities/Projectile.ts`): `update(deltaTime)` first
checks `isExpired()`, which compares `Date.now() - this.createdAt >= this.lifetime`
— a real-time clock reading, passed in here as the explicit `now`
argument, so expiry depends on the wall-clock schedule of the calls, not
on the accumulated deltas. -/

/-- State of the pooled `Projectile` (ProjectileManager.ts). -/
structure PoolProjectileState where
  posX : ℚ
  posY : ℚ
  velX : ℚ
  velY : ℚ
  damage : ℚ
  isActive : Bool
  lifetime : ℚ
  elapsedTime : ℚ
deriving Repr, DecidableEq

/-- `Projectile.init(position, velocity, damage, lifetime)` of the pooled
implementation: resets `elapsedTime` and activates. -/
def poolProjectileInit (px py vx vy damage lifetime : ℚ) :
    PoolProjectileState :=
  ⟨px, py, vx, vy, damage, true, lifetime, 0⟩

/-- `Projectile.update(deltaTime)` of the pooled implementation. -/
def poolProjectileUpdate (deltaTime : ℚ) (s : PoolProjectileState) :
    PoolProjectileState :=
  if s.isActive = false then s
  else
    let s1 := { s with
      posX := s.posX + s.velX * deltaTime,
      posY := s.posY + s.velY * deltaTime,
      elapsedTime := s.elapsedTime + deltaTime }
    if s1.elapsedTime ≥ s1.lifetime then { s1 with isActive := false }
    else s1

/-- Folds a sequence of `update` deltas over a pooled projectile. -/
def poolProjectileRun (s : PoolProjectileState) (ds : List ℚ) :
    PoolProjectileState :=
  ds.foldl (fun st d => poolProjectileUpdate d st) s

/-- State of the standalone `Projectile` (entities/Projectile.ts).
`createdAt` is the `Date.now()` reading taken by the constructor. -/
structure TsProjectileState where
  posX : ℚ
  posY : ℚ
  dirX : ℚ
  dirY : ℚ
  speed : ℚ
  lifetime : ℚ
  createdAt : ℚ
  active : Bool
deriving Repr, DecidableEq

/-- `Projectile.isExpired()` of entities/Projectile.ts:
`Date.now() - this.createdAt >= this.lifetime`, with the `Date.now()`
reading passed in as `now`. -/
def tsIsExpired (now : ℚ) (s : TsProjectileState) : Bool :=
  now - s.createdAt ≥ s.lifetime

/-- `Projectile.update(deltaTime)` of entities/Projectile.ts: returns the
source's boolean result (still active?) and the post-call state.  `now`
is the wall-clock reading `isExpired` takes during this call. -/
def tsProjectileUpdate (now deltaTime : ℚ) (s : TsProjectileState) :
    Bool × TsProjectileState :=
  if s.active = false then (false, s)
  else if tsIsExpired now s then (false, { s with active := false })
  else
    (true, { s with
      posX := s.posX + s.dirX * s.speed * deltaTime,
      posY := s.posY + s.dirY * s.speed * deltaTime })

lemma poolProjectileUpdate_inactive (deltaTime : ℚ)
    (s : PoolProjectileState) (h : s.isActive = false) :
    poolProjectileUpdate deltaTime s = s := by
  rw [poolProjectileUpdate, if_pos h]

/-- C3: the standalone `entities/Projectile.ts` expiry check reads
`Date.now()`, so the outcome of the very same update sequence depends on
the real-time schedule — contradicting the specified wall-clock
independence.  A projectile with lifetime 3000 ms created at clock 0 and
given a single `update(1)`: if the call happens at wall clock 0 it stays
active, if the identical call happens at wall clock 3000 it deactivates.
The pooled ProjectileManager.ts projectile behaves as specified: with
lifetime 3000, updates accumulating to 2999 leave it active and the
update that brings the accumulated elapsed time to exactly 3000
deactivates it, with no clock input at all. -/
theorem tsProjectile_expiry_depends_on_wall_clock :
    (tsProjectileUpdate 0 1 ⟨0, 0, 1, 0, 500, 3000, 0, true⟩).1 = true ∧
    (tsProjectileUpdate 3000 1 ⟨0, 0, 1, 0, 500, 3000, 0, true⟩).1 = false ∧
    (poolProjectileRun (poolProjectileInit 0 0 1 0 10 3000)
      [1000, 1000, 999]).isActive = true ∧
    (poolProjectileRun (poolProjectileInit 0 0 1 0 10 3000)
      [1000, 1000, 999, 1]).isActive = false := by
  refine ⟨?_, ?_, ?_, ?_⟩ <;>
    norm_num [tsProjectileUpdate, tsIsExpired, poolProjectileRun,
      poolProjectileUpdate, poolProjectileInit]

/-! ## Collision module (`CollisionSystem.checkCircleCollision`)

Source: after `validateCircle` (which throws unless `radius > 0`), the
routine computes `dx`, `dy`, `distance = Math.sqrt(dx*dx + dy*dy)` and
`sumRadii`; it returns `hasCollision: false` when `distance >= sumRadii`,
and otherwise a result whose normal is `{x: dx/distance, y: dy/distance}`.
There is no special case for `distance === 0`: for concentric circles the
normal components are `0/0`, which is `NaN` in JavaScript.

`circleHasCollision` is the executable form of the source's
`distance >= sumRadii` test, comparing squares; for validated circles
(positive radii) it agrees with the comparison of the exact real distance
`Real.sqrt (distSq)` against `sumRadii` — `checkCircleCollision_boundary`
below states exactly that agreement, so nothing is lost by squaring. -/

/-- `interface Circle` (position plus radius). -/
structure Circle where
  x : ℚ
  y : ℚ
  radius : ℚ
deriving Repr, DecidableEq

/-- `dx*dx + dy*dy`, the quantity under the square root. -/
def distSq (a b : Circle) : ℚ :=
  (b.x - a.x) * (b.x - a.x) + (b.y - a.y) * (b.y - a.y)

/-- `circleA.radius + circleB.radius`. -/
def sumRadii (a b : Circle) : ℚ := a.radius + b.radius

/-- JavaScript division: `none` stands for the non-finite result
(`NaN` or `±Infinity`) produced when the divisor is `0`. -/
def jsDiv (a b : ℚ) : Option ℚ :=
  if b = 0 then none else some (a / b)

/-- The `hasCollision` field computed by `checkCircleCollision`:
`distance >= sumRadii` reports no collision.  Executable squared form of
the source's comparison (see the section comment). -/
def circleHasCollision (a b : Circle) : Bool :=
  decide (distSq a b < sumRadii a b ^ 2)

/-- The `normal` vector computed by `checkCircleCollision`:
`{x: dx/distance, y: dy/distance}`.  `dist` is the value of
`Math.sqrt(dx*dx + dy*dy)`; theorems supply it together with a proof that
it is that square root. -/
def circleNormal (a b : Circle) (dist : ℚ) : Option ℚ × Option ℚ :=
  (jsDiv (b.x - a.x) dist, jsDiv (b.y - a.y) dist)

/-- C4: for two perfectly concentric circles of radius 1 the collision is
reported, the computed center distance is `√0 = 0`, and the normal is
`(0/0, 0/0)` — both components the non-finite `NaN` (`none`), not the
canonical unit x-axis fallback `(1, 0)` the specification requires. -/
theorem checkCircleCollision_concentric_nan :
    circleHasCollision ⟨0, 0, 1⟩ ⟨0, 0, 1⟩ = true ∧
    Real.sqrt ((distSq ⟨0, 0, 1⟩ ⟨0, 0, 1⟩ : ℚ) : ℝ) = 0 ∧
    circleNormal ⟨0, 0, 1⟩ ⟨0, 0, 1⟩ 0 = (none, none) ∧
    circleNormal ⟨0, 0, 1⟩ ⟨0, 0, 1⟩ 0 ≠ (some 1, some 0) := by
  have hd : distSq ⟨0, 0, 1⟩ ⟨0, 0, 1⟩ = 0 := by norm_num [distSq]
  refine ⟨?_, ?_, ?_, ?_⟩
  · norm_num [circleHasCollision, sumRadii, hd]
  · rw [hd]
    norm_num [Real.sqrt_zero]
  · norm_num [circleNormal, jsDiv]
  · norm_num [circleNormal, jsDiv]
    intro hcontra
    exact Option.noConfusion hcontra

/-- C5: for circles with positive radii, `checkCircleCollision` reports
no overlap whenever the center distance `√(dx² + dy²)` is at least the
sum of the radii (tangency included), and reports overlap whenever the
center distance is strictly below the sum. -/
theorem checkCircleCollision_boundary (a b : Circle)
    (ha : 0 < a.radius) (hb : 0 < b.radius) :
    ((sumRadii a b : ℝ) ≤ Real.sqrt ((distSq a b : ℚ) : ℝ) →
      circleHasCollision a b = false) ∧
    (Real.sqrt ((distSq a b : ℚ) : ℝ) < (sumRadii a b : ℝ) →
      circleHasCollision a b = true) := by
  have hs : (0 : ℚ) < sumRadii a b := by
    unfold sumRadii
    linarith
  have hsR : (0 : ℝ) < (sumRadii a b : ℝ) := by exact_mod_cast hs
  constructor
  · intro h
    have h2 : ((sumRadii a b : ℝ)) ^ 2 ≤ ((distSq a b : ℚ) : ℝ) :=
      (Real.le_sqrt' hsR).mp h
    have h3 : sumRadii a b ^ 2 ≤ distSq a b := by exact_mod_cast h2
    simp only [circleHasCollision, decide_eq_false_iff_not, not_lt]
    exact h3
  · intro h
    have h2 : ((distSq a b : ℚ) : ℝ) < ((sumRadii a b : ℝ)) ^ 2 :=
      (Real.sqrt_lt' hsR).mp h
    have h3 : distSq a b < sumRadii a b ^ 2 := by exact_mod_cast h2
    simp only [circleHasCollision, decide_eq_true_eq]
    exact h3

/-- Witness for `checkCircleCollision_boundary`: circles at distance 3
with radii 1 and 2 (exact tangency) report no collision; moving the
second circle to distance 29/10 < 3 reports a collision. -/
theorem checkCircleCollision_boundary_witness :
    (0 : ℚ) < 1 ∧ (0 : ℚ) < 2 ∧
    circleHasCollision ⟨0, 0, 1⟩ ⟨3, 0, 2⟩ = false ∧
    circleHasCollision ⟨0, 0, 1⟩ ⟨29 / 10, 0, 2⟩ = true := by
  refine ⟨by norm_num, by norm_num, ?_, ?_⟩
  · refine (checkCircleCollision_boundary ⟨0, 0, 1⟩ ⟨3, 0, 2⟩
      (by norm_num) (by norm_num)).1 ?_
    have h9 : ((distSq ⟨0, 0, 1⟩ ⟨3, 0, 2⟩ : ℚ) : ℝ) = 3 ^ 2 := by
      norm_num [distSq]
    rw [h9, Real.sqrt_sq (by norm_num)]
    norm_num [sumRadii]
  · refine (checkCircleCollision_boundary ⟨0, 0, 1⟩ ⟨29 / 10, 0, 2⟩
      (by norm_num) (by norm_num)).2 ?_
    have h9 : ((distSq ⟨0, 0, 1⟩ ⟨29 / 10, 0, 2⟩ : ℚ) : ℝ) =
        (29 / 10) ^ 2 := by
      norm_num [distSq]
    rw [h9, Real.sqrt_sq (by norm_num)]
    norm_num [sumRadii]

/-! ## Difficulty manager (`DifficultyManager`)

Source: `update(deltaTime)` adds `deltaTime` to `state.timePlayed`, then
reads `Date.now()` and advances one difficulty step only when
`currentTime - lastUpdateTime >= timeInterval` — the escalation trigger
is the wall clock, not the accumulated `deltaTime`.  `progressDifficulty`
is a no-op once `isMaxDifficulty` is set, sets `isMaxDifficulty` when the
next level would exceed `maxLevel`, and otherwise advances to the next
level only if the step table defines it.  The `Date.now()` readings are
the explicit `now` arguments here. -/

/-- `interface DifficultyStep`. -/
structure DifficultyStep where
  level : ℕ
  enemySpeed : ℚ
  enemyHealth : ℚ
  spawnRate : ℚ
  scoreMultiplier : ℚ
deriving Repr, DecidableEq, Inhabited

/-- `interface DifficultyConfig`. -/
structure DifficultyConfig where
  baseLevel : ℕ
  maxLevel : ℕ
  scalingFactor : ℚ
  timeInterval : ℚ
  difficultySteps : List DifficultyStep
deriving Repr, DecidableEq

/-- `DEFAULT_CONFIG`: interval 60000 ms, levels 1–3 in the step table,
`maxLevel` 10. -/
def defaultDifficultyConfig : DifficultyConfig :=
  ⟨1, 10, 12 / 10, 60000,
    [⟨1, 1, 100, 1, 1⟩,
     ⟨2, 12 / 10, 120, 12 / 10, 12 / 10⟩,
     ⟨3, 14 / 10, 140, 14 / 10, 14 / 10⟩]⟩

/-- `interface DifficultyState` plus the manager's `lastUpdateTime`
field (the `Date.now()` reading of the last advance). -/
structure DifficultyManagerState where
  currentLevel : ℕ
  currentStep : DifficultyStep
  timePlayed : ℚ
  isMaxDifficulty : Bool
  lastUpdateTime : ℚ
deriving Repr, DecidableEq

/-- Constructor state: `currentLevel = baseLevel`,
`currentStep = difficultySteps[0]`, `lastUpdateTime = Date.now()`
(passed as `t0`). -/
def initialDifficultyState (cfg : DifficultyConfig) (t0 : ℚ) :
    DifficultyManagerState :=
  ⟨cfg.baseLevel, cfg.difficultySteps.headI, 0, false, t0⟩

/-- `findDifficultyStep(level)`. -/
def findDifficultyStep (cfg : DifficultyConfig) (level : ℕ) :
    Option DifficultyStep :=
  cfg.difficultySteps.find? (fun step => step.level == level)

/-- `progressDifficulty()`. -/
def progressDifficulty (cfg : DifficultyConfig)
    (s : DifficultyManagerState) : DifficultyManagerState :=
  if s.isMaxDifficulty then s
  else
    let nextLevel := s.currentLevel + 1
    if nextLevel > cfg.maxLevel then { s with isMaxDifficulty := true }
    else
      match findDifficultyStep cfg nextLevel with
      | some nextStep =>
        { s with currentLevel := nextLevel, currentStep := nextStep }
      | none => s

/-- `DifficultyManager.update(deltaTime)`; `now` is this call's
`Date.now()` reading. -/
def difficultyUpdate (cfg : DifficultyConfig) (deltaTime now : ℚ)
    (s : DifficultyManagerState) : DifficultyManagerState :=
  let s1 := { s with timePlayed := s.timePlayed + deltaTime }
  if now - s1.lastUpdateTime ≥ cfg.timeInterval then
    { progressDifficulty cfg s1 with lastUpdateTime := now }
  else s1

/-- C6 counterexample: with the default configuration (interval
60000 ms), two update calls with `deltaTime` 30000 and 40000 — cumulative
played time 70000, crossing 60000 — both issued at an unchanged wall
clock (`Date.now()` still 0) leave the level at 1: the level does not
advance from 1 to 2 when cumulative deltaTime crosses the interval,
because the trigger compares `Date.now()` readings, not played time. -/
theorem difficulty_cumulative_delta_does_not_advance :
    (difficultyUpdate defaultDifficultyConfig 40000 0
      (difficultyUpdate defaultDifficultyConfig 30000 0
        (initialDifficultyState defaultDifficultyConfig 0))).timePlayed
      = 70000 ∧
    (difficultyUpdate defaultDifficultyConfig 40000 0
      (difficultyUpdate defaultDifficultyConfig 30000 0
        (initialDifficultyState defaultDifficultyConfig 0))).currentLevel
      = 1 := by
  constructor <;>
    norm_num [difficultyUpdate, initialDifficultyState,
      defaultDifficultyConfig]

/-- C6 (amended): escalation is driven by the wall clock.  Under a
real-time schedule where each call's `Date.now()` equals the cumulative
deltaTime (updates delivered in real time), the default-configured
manager advances from level 1 to level 2 exactly once as 60000 is
crossed: deltas 30000, 40000, 1000 at clock readings 30000, 70000, 71000
give levels 1, 2, 2.  In general each update advances the level by at
most one table-defined step, and once `isMaxDifficulty` is set an update
never changes the level again. -/
theorem difficulty_wall_clock_advance (cfg : DifficultyConfig)
    (s : DifficultyManagerState) (deltaTime now : ℚ) :
    ((difficultyUpdate defaultDifficultyConfig 30000 30000
        (initialDifficultyState defaultDifficultyConfig 0)).currentLevel
        = 1 ∧
      (difficultyUpdate defaultDifficultyConfig 40000 70000
        (difficultyUpdate defaultDifficultyConfig 30000 30000
          (initialDifficultyState defaultDifficultyConfig 0))).currentLevel
        = 2 ∧
      (difficultyUpdate defaultDifficultyConfig 1000 71000
        (difficultyUpdate defaultDifficultyConfig 40000 70000
          (difficultyUpdate defaultDifficultyConfig 30000 30000
            (initialDifficultyState
              defaultDifficultyConfig 0)))).currentLevel = 2) ∧
    ((difficultyUpdate cfg deltaTime now s).currentLevel = s.currentLevel ∨
      (difficultyUpdate cfg deltaTime now s).currentLevel =
        s.currentLevel + 1) ∧
    (s.isMaxDifficulty = true →
      (difficultyUpdate cfg deltaTime now s).currentLevel =
        s.currentLevel) := by
  have hprog : ∀ t : DifficultyManagerState,
      (progressDifficulty cfg t).currentLevel = t.currentLevel ∨
        (progressDifficulty cfg t).currentLevel = t.currentLevel + 1 := by
    intro t
    unfold progressDifficulty
    by_cases hm : t.isMaxDifficulty
    · simp [hm]
    · simp only [hm, if_false, Bool.false_eq_true]
      by_cases hl : t.currentLevel + 1 > cfg.maxLevel
      · simp [hl]
      · simp only [hl, if_false]
        cases findDifficultyStep cfg (t.currentLevel + 1) with
        | none => simp
        | some st => simp
  refine ⟨⟨?_, ?_, ?_⟩, ?_, ?_⟩
  · norm_num [difficultyUpdate, initialDifficultyState,
      defaultDifficultyConfig]
  · norm_num [difficultyUpdate, initialDifficultyState,
      defaultDifficultyConfig, progressDifficulty, findDifficultyStep,
      List.find?]
    rfl
  · norm_num [difficultyUpdate, initialDifficultyState,
      defaultDifficultyConfig, progressDifficulty, findDifficultyStep,
      List.find?]
    rfl
  · unfold difficultyUpdate
    by_cases ht : now - s.lastUpdateTime ≥ cfg.timeInterval
    · simp only [ht, if_true, if_pos]
      exact hprog _
    · simp [ht]
  · intro hm
    unfold difficultyUpdate
    by_cases ht : now - s.lastUpdateTime ≥ cfg.timeInterval
    · simp only [ht, if_true, if_pos]
      unfold progressDifficulty
      simp [hm]
    · simp [ht]

/-- Witness for `difficulty_wall_clock_advance`: a manager already at max
difficulty (level 10) keeps level 10 across an update issued a full
interval later. -/
theorem difficulty_wall_clock_advance_witness :
    (⟨10, ⟨3, 14 / 10, 140, 14 / 10, 14 / 10⟩, 0, true, 0⟩ :
        DifficultyManagerState).isMaxDifficulty = true ∧
      (difficultyUpdate defaultDifficultyConfig 1000 60000
        ⟨10, ⟨3, 14 / 10, 140, 14 / 10, 14 / 10⟩, 0, true, 0⟩).currentLevel
        = 10 := by
  have h := difficulty_wall_clock_advance defaultDifficultyConfig
    ⟨10, ⟨3, 14 / 10, 140, 14 / 10, 14 / 10⟩, 0, true, 0⟩ 1000 60000
  exact ⟨rfl, h.2.2 rfl⟩

/-! ## Score manager (`ScoreManager`)

Source: `loadHighScores` parses the stored blob; a parse failure is
caught and yields `[]`, a parsed non-array yields `[]`, but a parsed
array is adopted wholesale (no truncation to `maxHighScores`) and sorted.
`addHighScore` pushes when below the cap, otherwise replaces the last
(lowest) entry when the new score beats it, re-sorting each time.
`sortHighScores` sorts descending by score with the comparator
`(a, b) => b.score - a.score`; `clearHighScores` empties the list.  The
stored blob is modelled as `Option (Option (List ScoreEntry))`: `none` is
missing data, `some none` is corrupt data (unparsable, or parsed to a
non-array), `some (some l)` is a parsed array. -/

/-- `interface ScoreEntry`. -/
structure ScoreEntry where
  playerName : String
  score : ℤ
  timestamp : ℚ
deriving Repr, DecidableEq

/-- Descending-score order: the comparator `(a, b) => b.score - a.score`
keeps `a` before `b` exactly when `b.score ≤ a.score`. -/
def scoreGE (a b : ScoreEntry) : Prop := b.score ≤ a.score

instance : DecidableRel scoreGE := fun a b =>
  inferInstanceAs (Decidable (b.score ≤ a.score))

instance : IsTotal ScoreEntry scoreGE :=
  ⟨fun a b => le_total b.score a.score⟩

instance : IsTrans ScoreEntry scoreGE :=
  ⟨fun _ _ _ h1 h2 => le_trans h2 h1⟩

/-- `sortHighScores()`: sort descending by score. -/
def sortHighScores (l : List ScoreEntry) : List ScoreEntry :=
  List.insertionSort scoreGE l

/-- `getLowestHighScore()`: last entry's score (lowest, when sorted) or
`0` for an empty list. -/
def getLowestHighScore (l : List ScoreEntry) : ℤ :=
  match l.getLast? with
  | some e => e.score
  | none => 0

/-- `addHighScore(entry)`: returns the "was added" flag and the new
list.  Below the cap: push and sort.  At the cap: if the entry beats the
lowest, pop the last entry, push, and sort. -/
def addHighScore (maxHighScores : ℕ) (l : List ScoreEntry)
    (entry : ScoreEntry) : Bool × List ScoreEntry :=
  if l.length < maxHighScores then (true, sortHighScores (l ++ [entry]))
  else if entry.score > getLowestHighScore l then
    (true, sortHighScores (l.dropLast ++ [entry]))
  else (false, l)

/-- `loadHighScores()`: missing data keeps the constructor's `[]`;
corrupt data (parse throw, or parsed non-array) yields `[]`; a parsed
array is adopted in full and sorted. -/
def loadHighScores (stored : Option (Option (List ScoreEntry))) :
    List ScoreEntry :=
  match stored with
  | none => []
  | some none => []
  | some (some l) => sortHighScores l

/-- `clearHighScores()`. -/
def clearHighScores : List ScoreEntry := []

/-- C8 counterexample: a well-formed persisted array of 2 entries loaded
by a manager configured with `maxHighScores = 1` yields a stored list of
length 2 — the cap is not enforced on load, so "its length never exceeds
the configured maximum entry count" fails after construction. -/
theorem scoreManager_load_exceeds_cap :
    (loadHighScores (some (some
      [⟨"a", 1, 0⟩, ⟨"b", 2, 0⟩]))).length = 2 ∧
    ¬ ((loadHighScores (some (some
      [⟨"a", 1, 0⟩, ⟨"b", 2, 0⟩]))).length ≤ 1) := by
  constructor
  · rw [loadHighScores, sortHighScores, List.length_insertionSort]
    rfl
  · rw [loadHighScores, sortHighScores, List.length_insertionSort]
    norm_num

/-- C8 (amended): every public operation leaves the list sorted
descending by score; `submitHighScore` (via `addHighScore`) and
`clearHighScores` also preserve the cap `length ≤ maxHighScores` (for a
positive cap); loading missing or corrupt data yields `[]`.  The one
exception to the cap is construction/load itself: a well-formed persisted
array longer than the cap is adopted in full (see the counterexample). -/
theorem scoreManager_invariants (maxHighScores : ℕ) (l : List ScoreEntry)
    (entry : ScoreEntry) (stored : Option (Option (List ScoreEntry)))
    (hmax : 0 < maxHighScores) (hsorted : l.Sorted scoreGE)
    (hlen : l.length ≤ maxHighScores) :
    ((addHighScore maxHighScores l entry).2.Sorted scoreGE ∧
      (addHighScore maxHighScores l entry).2.length ≤ maxHighScores) ∧
    ((loadHighScores stored).Sorted scoreGE ∧
      (stored = none ∨ stored = some none → loadHighScores stored = [])) ∧
    (clearHighScores.Sorted scoreGE ∧
      clearHighScores.length ≤ maxHighScores) := by
  refine ⟨⟨?_, ?_⟩, ⟨?_, ?_⟩, ?_, ?_⟩
  · unfold addHighScore
    by_cases h1 : l.length < maxHighScores
    · rw [if_pos h1]
      exact List.sorted_insertionSort scoreGE _
    · rw [if_neg h1]
      by_cases h2 : entry.score > getLowestHighScore l
      · rw [if_pos h2]
        exact List.sorted_insertionSort scoreGE _
      · rw [if_neg h2]
        exact hsorted
  · unfold addHighScore
    by_cases h1 : l.length < maxHighScores
    · rw [if_pos h1]
      simp only [sortHighScores, List.length_insertionSort,
        List.length_append, List.length_singleton]
      omega
    · rw [if_neg h1]
      by_cases h2 : entry.score > getLowestHighScore l
      · rw [if_pos h2]
        simp only [sortHighScores, List.length_insertionSort,
          List.length_append, List.length_singleton, List.length_dropLast]
        omega
      · rw [if_neg h2]
        exact hlen
  · cases stored with
    | none => exact List.sorted_nil
    | some o =>
      cases o with
      | none => exact List.sorted_nil
      | some l' => exact List.sorted_insertionSort scoreGE l'
  · intro h
    rcases h with rfl | rfl <;> rfl
  · exact List.sorted_nil
  · simp [clearHighScores]

/-- Witness for `scoreManager_invariants`: cap 2, sorted one-entry list,
new entry with a lower score — the result stays sorted and within the
cap. -/
theorem scoreManager_invariants_witness :
    0 < 2 ∧
    (addHighScore 2 [⟨"a", 5, 0⟩] ⟨"b", 3, 0⟩).2.Sorted scoreGE ∧
    (addHighScore 2 [⟨"a", 5, 0⟩] ⟨"b", 3, 0⟩).2.length ≤ 2 := by
  have h := scoreManager_invariants 2 [⟨"a", 5, 0⟩] ⟨"b", 3, 0⟩ none
    (by norm_num) (List.sorted_singleton _) (by norm_num)
  exact ⟨by norm_num, h.1.1, h.1.2⟩

end SpaceInvaders
